import Mathlib

/-!
# Verification of the StoxEye portfolio bot's file pipeline (`bot.py`)

Shallow embedding of the non-framework logic of `bot.py`:
source resolution (`_list_from_dir`, `find_sources`), normalization
(`convert_excel_to_csv`, `prepare_files`), packaging (`zip_pairs`),
configuration loading (module top level, lines 16–25), and the two
request handlers (`send_zip`, `send_files`).

Modelling conventions:
* The filesystem is a finite association list from path strings to file
  data; `pandas` reading/writing is a pure `Converter` oracle mapping the
  bytes of a spreadsheet to the bytes of its CSV serialization (or to
  failure, modelling any exception raised by `pd.read_excel`).
* Python string operations (`lower`, `endswith`, `strip`, `Path.name`,
  `Path.stem`, glob matching) are re-implemented over `List Char`;
  `Char.toLower` handles the ASCII range, which is where the program's
  extension tests live.
* Filename matching by `glob.glob` is POSIX semantics: case-sensitive,
  and a `*` pattern does not match names with a leading dot.
* Network transmission and unexpected filesystem faults are oracles
  (`Ora`): each send either succeeds or raises, and building the archive
  either succeeds or raises; the handlers' control flow around those
  events (including `try`/`finally` placement) is transcribed exactly.
-/

/-- Python's `s.lower()` restricted to ASCII case mapping. -/
def lowerStr (s : String) : String := ⟨s.data.map Char.toLower⟩

/-- Python's `s.endswith(suffix)`. -/
def endsW (s suffix : String) : Bool := suffix.data.isSuffixOf s.data

/-- Python's `s.strip()`: drop leading and trailing whitespace. -/
def pyStrip (s : String) : String :=
  ⟨((s.data.dropWhile Char.isWhitespace).reverse.dropWhile Char.isWhitespace).reverse⟩

/-- Python's `s.strip(c)` for a single character `c`. -/
def stripCh (c : Char) (s : String) : String :=
  ⟨((s.data.dropWhile (· = c)).reverse.dropWhile (· = c)).reverse⟩

/-- Python's `pathlib.Path(p).name`: the part after the last `/`. -/
def pyName (p : String) : String :=
  ⟨(p.data.reverse.takeWhile (fun c => c ≠ '/')).reverse⟩

/-- Stem of a file *name* following `pathlib`: the name up to the last
dot, provided that dot is neither the first character nor the last. -/
def stemChars (n : List Char) : List Char :=
  let rev := n.reverse
  let afterRev := rev.takeWhile (fun c => c ≠ '.')
  let restRev := rev.dropWhile (fun c => c ≠ '.')
  match restRev with
  | [] => n
  | _ :: stemRev => if stemRev.isEmpty || afterRev.isEmpty then n else stemRev.reverse

/-- Python's `pathlib.Path(p).stem`. -/
def pyStem (p : String) : String := ⟨stemChars (pyName p).data⟩

/-- `os.path.join(dir, name)` on POSIX. -/
def pathJoin (dir name : String) : String := dir ++ "/" ++ name

/-- Strip a prefix from a character list, or fail. -/
def dropPre : List Char → List Char → Option (List Char)
  | [], l => some l
  | _ :: _, [] => none
  | a :: as, b :: bs => if a = b then dropPre as bs else none

/-- Code-point lexicographic `≤` on character lists: Python's string
comparison as used by `sorted`. -/
def lexLe : List Char → List Char → Bool
  | [], _ => true
  | _ :: _, [] => false
  | a :: as, b :: bs => if a < b then true else if b < a then false else lexLe as bs

/-- File data: ordinary file bytes, or a ZIP archive holding a list of
(entry name, entry bytes) pairs.  The on-disk byte serialization of an
archive is abstracted (the program never reads an archive back). -/
inductive FData where
  | raw : String → FData
  | zipf : List (String × String) → FData
deriving DecidableEq, Repr

/-- Bytes obtained by `open(path, "rb").read()`.  Archives are only ever
transmitted, never re-read, so their serialization is opaque. -/
def FData.bytes : FData → String
  | .raw s => s
  | .zipf _ => ""

/-- The filesystem: a finite map from absolute path strings to file
data, as an association list (first binding wins). -/
structure FS where
  files : List (String × FData)
deriving DecidableEq, Repr

/-- First value bound to `p`. -/
def lookupFD : List (String × FData) → String → Option FData
  | [], _ => none
  | q :: qs, p => if q.1 = p then some q.2 else lookupFD qs p

/-- Remove every binding of `p`. -/
def eraseKey : List (String × FData) → String → List (String × FData)
  | [], _ => []
  | q :: qs, p => if q.1 = p then eraseKey qs p else q :: eraseKey qs p

/-- Read a file's data. -/
def FS.read (fs : FS) (p : String) : Option FData := lookupFD fs.files p

/-- `os.path.isfile`. -/
def FS.isFile (fs : FS) (p : String) : Bool := (fs.read p).isSome

/-- `open(p, "w")` / `df.to_csv(p)` / `zipfile.ZipFile(p, "w")`:
create or overwrite the file at `p`. -/
def FS.write (fs : FS) (p : String) (d : FData) : FS :=
  ⟨(p, d) :: eraseKey fs.files p⟩

/-- `os.remove(p)`; the handlers only call it wrapped in
`try: ... except: pass`, so a total model loses nothing. -/
def FS.remove (fs : FS) (p : String) : FS := ⟨eraseKey fs.files p⟩

/-- Remove a list of paths in order (the cleanup loops). -/
def FS.removeAll (fs : FS) (ps : List String) : FS := ps.foldl FS.remove fs

/-- Names of the entries directly inside `dir`: paths of the form
`dir ++ "/" ++ name` with no further `/` in `name`. -/
def FS.dirEntries (fs : FS) (dir : String) : List String :=
  fs.files.filterMap (fun q =>
    match dropPre (dir ++ "/").data q.1.data with
    | some rest => if rest.elem '/' then none else some ⟨rest⟩
    | none => none)

/-- POSIX `glob` match of a name against the pattern `*` ++ `ext`:
case-sensitive, and `*` does not match a leading dot (hidden files). -/
def globMatch (name ext : String) : Bool :=
  (match name.data with
   | [] => false
   | c :: _ => decide (c ≠ '.')) && endsW name ext

/-- `glob.glob(os.path.join(dir, "*" + ext))`. -/
def glob (fs : FS) (dir ext : String) : List String :=
  (fs.dirEntries dir).filterMap
    (fun n => if globMatch n ext then some (pathJoin dir n) else none)

/-- Python `set(...)`: keep one copy of each element (keeping the last
occurrence; the subsequent sort makes the choice irrelevant). -/
def dedupStr : List String → List String
  | [] => []
  | x :: xs => if x ∈ xs then dedupStr xs else x :: dedupStr xs

/-- Insert into a list sorted by `sorted`'s key `p.lower()`. -/
def insLower (x : String) : List String → List String
  | [] => [x]
  | y :: ys =>
    if lexLe (lowerStr x).data (lowerStr y).data then x :: y :: ys else y :: insLower x ys

/-- `sorted(·, key=lambda p: p.lower())`. -/
def sortLower : List String → List String
  | [] => []
  | x :: xs => insLower x (sortLower xs)

/-- `_list_from_dir` (bot.py lines 33–45): glob the four patterns
`*.csv`, `*.CSV`, `*.xlsx`, `*.xls` inside `directory`, deduplicate, and
sort by lowercased path.  (`os.makedirs` has no observable effect on the
returned list and is omitted.) -/
def _list_from_dir (fs : FS) (directory : String) : List String :=
  sortLower (dedupStr
    (glob fs directory ".csv" ++ glob fs directory ".CSV" ++
     glob fs directory ".xlsx" ++ glob fs directory ".xls"))

/-- Configuration derived from the environment (bot.py lines 16–22). -/
structure BotConfig where
  botToken : String
  stoxeyeUrl : String
  csvTarget : String
deriving DecidableEq, Repr

/-- `find_sources` (bot.py lines 47–51). -/
def find_sources (cfg : BotConfig) (fs : FS) : List String :=
  if fs.isFile cfg.csvTarget then [cfg.csvTarget] else _list_from_dir fs cfg.csvTarget

/-- The tabular-data converter: `pd.read_excel(·, sheet_name=0)` followed
by `df.to_csv(·, index=False)`, abstracted as a pure function from the
spreadsheet's bytes to the CSV serialization of its first sheet; `none`
models any exception raised during the conversion (corrupt file,
unsupported layout). -/
structure Converter where
  parse : String → Option String

/-- `convert_excel_to_csv` (bot.py lines 53–58): read the first sheet of
the Excel file at `p`, write it as CSV to
`os.path.join(tempfile.gettempdir(), Path(p).stem + ".csv")`, and return
that path together with the updated filesystem; `none` when the read or
the conversion raises. -/
def convert_excel_to_csv (cv : Converter) (tmp : String) (fs : FS) (p : String) :
    Option (String × FS) :=
  match fs.read p with
  | none => none
  | some d =>
    match cv.parse d.bytes with
    | none => none
    | some csv =>
      let out := pathJoin tmp (pyStem p ++ ".csv")
      some (out, fs.write out (.raw csv))

/-- `p.lower().endswith(".csv")` — the first branch guard of the
`prepare_files` loop. -/
def csvB (p : String) : Bool := endsW (lowerStr p) ".csv"

/-- `p.lower().endswith((".xlsx", ".xls"))` — the second branch guard of
the `prepare_files` loop. -/
def excelB (p : String) : Bool :=
  endsW (lowerStr p) ".xlsx" || endsW (lowerStr p) ".xls"

/-- Result of `prepare_files`: the `(filepath, display_name)` pairs, the
temp files to delete, the paths for which a conversion-failure warning
was printed, and the filesystem after the conversions ran. -/
structure Prep where
  pairs : List (String × String)
  temps : List String
  warns : List String
  fs : FS
deriving DecidableEq, Repr

/-- The loop body of `prepare_files` (bot.py lines 68–79), processing the
resolved source paths in order. -/
def prepLoop (cv : Converter) (tmp : String) : List String → FS → Prep
  | [], fs => ⟨[], [], [], fs⟩
  | p :: ps, fs =>
    if csvB p then
      let r := prepLoop cv tmp ps fs
      ⟨(p, pyName p) :: r.pairs, r.temps, r.warns, r.fs⟩
    else if excelB p then
      match convert_excel_to_csv cv tmp fs p with
      | some (cp, fs') =>
        let r := prepLoop cv tmp ps fs'
        ⟨(cp, pyStem p ++ "_converted.csv") :: r.pairs, cp :: r.temps, r.warns, r.fs⟩
      | none =>
        let r := prepLoop cv tmp ps fs
        ⟨(p, pyName p) :: r.pairs, r.temps, p :: r.warns, r.fs⟩
    else
      prepLoop cv tmp ps fs

/-- `prepare_files` (bot.py lines 60–80). -/
def prepare_files (cfg : BotConfig) (cv : Converter) (tmp : String) (fs : FS) : Prep :=
  prepLoop cv tmp (find_sources cfg fs) fs

/-- `zip_pairs` (bot.py lines 82–89): write a fresh ZIP at the fixed
scratch path, adding the bytes of each pair whose path is currently a
file under the pair's display name, and return the ZIP's path. -/
def zip_pairs (tmp : String) (fs : FS) (pairs : List (String × String)) : String × FS :=
  let zipPath := pathJoin tmp "test_portfolios.zip"
  let entries := pairs.filterMap (fun pr =>
    if fs.isFile pr.1 then some (pr.2, ((fs.read pr.1).getD (.raw "")).bytes) else none)
  (zipPath, fs.write zipPath (.zipf entries))

/-- The process environment at startup: `os.getenv` results for the three
variables the module reads. -/
structure BotEnv where
  botToken : Option String
  stoxeyeUrl : Option String
  csvDir : Option String

/-- Module top level of bot.py (lines 16–25): build the configuration
from the environment and raise `RuntimeError` when the stripped
`BOT_TOKEN` is empty.  `normPath` abstracts
`os.path.normpath(os.path.expanduser(·))`, which is platform-defined. -/
def boot (env : BotEnv) (normPath : String → String) : Except String BotConfig :=
  let bot := pyStrip (env.botToken.getD "")
  let url := pyStrip (env.stoxeyeUrl.getD "https://your-stoxeye-site.example")
  let tgt0 := env.csvDir.getD "sample_portfolios"
  let tgt := normPath (stripCh '\'' (stripCh '"' (pyStrip tgt0)))
  if bot = "" then .error "Set BOT_TOKEN in .env with your BotFather token."
  else .ok ⟨bot, url, tgt⟩

/-- `WELCOME_TEXT` (bot.py lines 27–30). -/
def WELCOME_TEXT : String :=
  "👋 Hey! Here’s the StoxEye link and test CSV files.\n\nOpen StoxEye, upload a CSV, and play with the demo portfolio."

/-- A message sent back to the conversation: a text reply or a document
upload (filename, file data, caption).  The inline keyboard attached to
the link message carries no information beyond the URL already embedded
in the text, and is abstracted away. -/
inductive Sent where
  | msg : String → Sent
  | doc : String → FData → String → Sent
deriving DecidableEq, Repr

/-- Transmission / fault oracle for one request: whether each external
effect succeeds or raises.  `docOk n` governs the `n`-th
`reply_document` call of the request; `zipBuildOk = false` models
`zipfile.ZipFile` raising (an unexpected filesystem fault) inside
`zip_pairs`. -/
structure Ora where
  linkOk : Bool
  textOk : Bool
  zipBuildOk : Bool
  docOk : Nat → Bool

/-- The message `send_link` sends (bot.py lines 96–98). -/
def welcomeMsg (cfg : BotConfig) : Sent :=
  .msg (WELCOME_TEXT ++ "\n\n🔗 " ++ cfg.stoxeyeUrl)

/-- The no-files reply (bot.py lines 105 and 127). -/
def noFilesMsg (hint : String) : Sent :=
  .msg ("⚠️ No CSV/Excel files found at " ++ hint)

/-- `target_hint` (bot.py lines 103 and 125). -/
def targetHint (cfg : BotConfig) (fs : FS) : String :=
  if fs.isFile cfg.csvTarget then cfg.csvTarget else "folder: " ++ cfg.csvTarget

/-- `send_zip` (bot.py lines 100–120).  Result: whether the handler
returned normally (`false` = an exception propagated), the messages that
were transmitted, and the final filesystem.  Note the transcription of
the control flow: `zip_pairs` runs *before* the `try:` block, so an
exception raised while building the archive reaches the caller without
the `finally:` cleanup running. -/
def send_zip (ora : Ora) (cfg : BotConfig) (cv : Converter) (tmp : String) (fs : FS) :
    Bool × List Sent × FS :=
  if !ora.linkOk then (false, [], fs) else
  let r := prepare_files cfg cv tmp fs
  let hint := targetHint cfg r.fs
  if r.pairs.isEmpty then
    if ora.textOk then (true, [welcomeMsg cfg, noFilesMsg hint], r.fs)
    else (false, [welcomeMsg cfg], r.fs)
  else if !ora.zipBuildOk then
    (false, [welcomeMsg cfg], r.fs)
  else
    let z := zip_pairs tmp r.fs r.pairs
    let cleaned := (z.2.remove z.1).removeAll r.temps
    if ora.docOk 0 then
      (true,
       [welcomeMsg cfg,
        .doc "test_portfolios.zip" ((z.2.read z.1).getD (.raw ""))
          "📦 All sample portfolios (CSV). Import any one into StoxEye."],
       cleaned)
    else (false, [welcomeMsg cfg], cleaned)

/-- The document loop of `send_files` (bot.py lines 130–134): send each
pair in order until one raises (`open` failing on a missing path, or the
transport raising). -/
def sendDocs (ora : Ora) (fs : FS) : Nat → List (String × String) → Bool × List Sent
  | _, [] => (true, [])
  | n, pr :: rest =>
    match fs.read pr.1 with
    | none => (false, [])
    | some d =>
      if ora.docOk n then
        let r := sendDocs ora fs (n + 1) rest
        (r.1, .doc pr.2 d ("📄 " ++ pr.2 ++ " — import into StoxEye.") :: r.2)
      else (false, [])

/-- `send_files` (bot.py lines 122–138).  The whole document loop sits
inside `try:`, and the `finally:` removes every temp file, so cleanup
runs on both the normal and the raising path. -/
def send_files (ora : Ora) (cfg : BotConfig) (cv : Converter) (tmp : String) (fs : FS) :
    Bool × List Sent × FS :=
  if !ora.linkOk then (false, [], fs) else
  let r := prepare_files cfg cv tmp fs
  let hint := targetHint cfg r.fs
  if r.pairs.isEmpty then
    if ora.textOk then (true, [welcomeMsg cfg, noFilesMsg hint], r.fs)
    else (false, [welcomeMsg cfg], r.fs)
  else
    let s := sendDocs ora r.fs 0 r.pairs
    (s.1, welcomeMsg cfg :: s.2, r.fs.removeAll r.temps)

/-! ## Basic lemmas about the filesystem model -/

theorem lookupFD_eraseKey_ne (p q : String) (h : q ≠ p) :
    ∀ l : List (String × FData), lookupFD (eraseKey l p) q = lookupFD l q := by
  intro l
  induction l with
  | nil => rfl
  | cons a l ih =>
    by_cases hap : a.1 = p
    · have haq : a.1 ≠ q := fun hq => h (hq ▸ hap ▸ rfl)
      simp only [eraseKey, if_pos hap, lookupFD, if_neg haq, ih]
    · simp only [eraseKey, if_neg hap, lookupFD]
      by_cases haq : a.1 = q <;> simp [haq, ih]

theorem FS.read_write_self (fs : FS) (p : String) (d : FData) :
    (fs.write p d).read p = some d := by
  simp [FS.write, FS.read, lookupFD]

theorem FS.read_write_ne (fs : FS) (p q : String) (d : FData) (h : q ≠ p) :
    (fs.write p d).read q = fs.read q := by
  simp only [FS.write, FS.read, lookupFD]
  rw [if_neg (fun hh : p = q => h hh.symm)]
  exact lookupFD_eraseKey_ne p q h fs.files

/-! ## Lemmas about suffix tests -/

theorem endsW_iff (s suffix : String) : endsW s suffix = true ↔ suffix.data <:+ s.data := by
  simp [endsW, List.isSuffixOf_iff_suffix]

theorem endsW_append_right (a b c : String) (h : endsW b c = true) :
    endsW (a ++ b) c = true := by
  rw [endsW_iff] at h ⊢
  have : (a ++ b).data = a.data ++ b.data := rfl
  rw [this]
  exact h.trans (List.suffix_append a.data b.data)

theorem lowerStr_endsW_csv (p : String) (h : endsW p ".csv" = true) :
    endsW (lowerStr p) ".csv" = true := by
  rw [endsW_iff] at h ⊢
  obtain ⟨t, ht⟩ := h
  refine ⟨t.map Char.toLower, ?_⟩
  have : (lowerStr p).data = p.data.map Char.toLower := rfl
  rw [this, ← ht, List.map_append]
  rfl

theorem endsW_getLast? (s e : String) (he : e.data ≠ []) (h : endsW s e = true) :
    s.data.getLast? = e.data.getLast? := by
  rw [endsW_iff] at h
  obtain ⟨t, ht⟩ := h
  rw [← ht]
  exact List.getLast?_append_of_ne_nil t he

theorem csv_xlsx_exclusive (s : String) :
    endsW s ".csv" = true → endsW s ".xlsx" = true → False := by
  intro h1 h2
  have e1 := endsW_getLast? s ".csv" (by decide) h1
  have e2 := endsW_getLast? s ".xlsx" (by decide) h2
  rw [e1] at e2
  exact absurd e2 (by decide)

theorem csv_xls_exclusive (s : String) :
    endsW s ".csv" = true → endsW s ".xls" = true → False := by
  intro h1 h2
  have e1 := endsW_getLast? s ".csv" (by decide) h1
  have e2 := endsW_getLast? s ".xls" (by decide) h2
  rw [e1] at e2
  exact absurd e2 (by decide)

/-- A path taken by the Excel branch of `prepare_files` is not taken by
the CSV branch. -/
theorem excelB_csvB_false (p : String) (h : excelB p = true) : csvB p = false := by
  rcases Bool.eq_false_or_eq_true (csvB p) with hc | hc
  swap
  · exact hc
  · exfalso
    simp only [excelB, Bool.or_eq_true] at h
    rcases h with h | h
    · exact csv_xlsx_exclusive (lowerStr p) hc h
    · exact csv_xls_exclusive (lowerStr p) hc h

/-- A path taken by the Excel branch does not literally end in `.csv`,
hence is never one of the scratch CSV paths `prepare_files` writes. -/
theorem excelB_not_litcsv (p : String) (h : excelB p = true) :
    endsW p ".csv" = false := by
  rcases Bool.eq_false_or_eq_true (endsW p ".csv") with hc | hc
  swap
  · exact hc
  · exact absurd (excelB_csvB_false p h) (by simp [csvB, lowerStr_endsW_csv p hc])

/-- Every scratch path written by a conversion literally ends in `.csv`. -/
theorem out_endsW_csv (tmp stem : String) :
    endsW (pathJoin tmp (stem ++ ".csv")) ".csv" = true := by
  have h1 : endsW (stem ++ ".csv") ".csv" = true :=
    endsW_append_right stem ".csv" ".csv" (by decide)
  have h2 : pathJoin tmp (stem ++ ".csv") = (tmp ++ "/") ++ (stem ++ ".csv") := by
    simp [pathJoin, String.append_assoc]
  rw [h2]
  exact endsW_append_right (tmp ++ "/") (stem ++ ".csv") ".csv" h1

/-! ## Lemmas about the sort and dedup used by `_list_from_dir` -/

theorem mem_insLower (a x : String) (l : List String) :
    a ∈ insLower x l ↔ a = x ∨ a ∈ l := by
  induction l with
  | nil => simp [insLower]
  | cons y ys ih =>
    by_cases h : lexLe (lowerStr x).data (lowerStr y).data = true
    · simp [insLower, h]
    · simp only [insLower, if_neg h, List.mem_cons, ih]
      tauto

theorem mem_sortLower (a : String) (l : List String) :
    a ∈ sortLower l ↔ a ∈ l := by
  induction l with
  | nil => simp [sortLower]
  | cons x xs ih => simp [sortLower, mem_insLower, ih]

theorem lexLe_total : ∀ as bs : List Char, lexLe as bs = true ∨ lexLe bs as = true := by
  intro as
  induction as with
  | nil => intro bs; left; rfl
  | cons a as ih =>
    intro bs
    cases bs with
    | nil => right; rfl
    | cons b bs =>
      rcases lt_trichotomy a b with h | h | h
      · left; simp [lexLe, h]
      · subst h
        rcases ih bs with hh | hh
        · left; simp [lexLe, lt_irrefl, hh]
        · right; simp [lexLe, lt_irrefl, hh]
      · right; simp [lexLe, h]

theorem lexLe_trans : ∀ as bs cs : List Char,
    lexLe as bs = true → lexLe bs cs = true → lexLe as cs = true := by
  intro as
  induction as with
  | nil => intro bs cs _ _; rfl
  | cons a as ih =>
    intro bs cs h1 h2
    cases bs with
    | nil => exact absurd h1 (by simp [lexLe])
    | cons b bs =>
      cases cs with
      | nil => exact absurd h2 (by simp [lexLe])
      | cons c cs =>
        by_cases hab : a < b
        · by_cases hbc : b < c
          · simp [lexLe, lt_trans hab hbc]
          · by_cases hcb : c < b
            · exact absurd h2 (by simp [lexLe, hbc, hcb])
            · have hbceq : b = c := le_antisymm (le_of_not_lt hcb) (le_of_not_lt hbc)
              subst hbceq
              simp [lexLe, hab]
        · by_cases hba : b < a
          · exact absurd h1 (by simp [lexLe, hab, hba])
          · have habeq : a = b := le_antisymm (le_of_not_lt hba) (le_of_not_lt hab)
            subst habeq
            simp only [lexLe, if_neg (lt_irrefl a)] at h1
            by_cases hac : a < c
            · simp [lexLe, hac]
            · by_cases hca : c < a
              · exact absurd h2 (by simp [lexLe, hac, hca])
              · have haceq : a = c := le_antisymm (le_of_not_lt hca) (le_of_not_lt hac)
                subst haceq
                simp only [lexLe, if_neg (lt_irrefl a)] at h2 ⊢
                exact ih bs cs h1 h2

theorem pairwise_insLower (x : String) (l : List String)
    (h : l.Pairwise (fun a b => lexLe (lowerStr a).data (lowerStr b).data = true)) :
    (insLower x l).Pairwise (fun a b => lexLe (lowerStr a).data (lowerStr b).data = true) := by
  induction l with
  | nil => simp [insLower]
  | cons y ys ih =>
    rcases List.pairwise_cons.mp h with ⟨hy, hys⟩
    by_cases hle : lexLe (lowerStr x).data (lowerStr y).data = true
    · rw [insLower, if_pos hle]
      refine List.pairwise_cons.mpr ⟨?_, h⟩
      intro b hb
      rcases List.mem_cons.mp hb with rfl | hb
      · exact hle
      · exact lexLe_trans _ _ _ hle (hy b hb)
    · have hyx : lexLe (lowerStr y).data (lowerStr x).data = true := by
        rcases lexLe_total (lowerStr x).data (lowerStr y).data with hh | hh
        · exact absurd hh hle
        · exact hh
      rw [insLower, if_neg hle]
      refine List.pairwise_cons.mpr ⟨?_, ih hys⟩
      intro b hb
      rcases (mem_insLower b x ys).mp hb with rfl | hb
      · exact hyx
      · exact hy b hb

theorem pairwise_sortLower (l : List String) :
    (sortLower l).Pairwise (fun a b => lexLe (lowerStr a).data (lowerStr b).data = true) := by
  induction l with
  | nil => simp [sortLower]
  | cons x xs ih => exact pairwise_insLower x (sortLower xs) ih

theorem nodup_insLower (x : String) (l : List String) (hx : x ∉ l) (h : l.Nodup) :
    (insLower x l).Nodup := by
  induction l with
  | nil => simp [insLower]
  | cons y ys ih =>
    rcases List.nodup_cons.mp h with ⟨hy, hys⟩
    by_cases hle : lexLe (lowerStr x).data (lowerStr y).data = true
    · simp only [insLower, if_pos hle, List.nodup_cons, List.mem_cons]
      exact ⟨fun hh => hx (List.mem_cons.mpr hh), hy, hys⟩
    · simp only [insLower, if_neg hle, List.nodup_cons, mem_insLower]
      refine ⟨?_, ih (fun hh => hx (List.mem_cons_of_mem y hh)) hys⟩
      rintro (rfl | hmem)
      · exact hx (List.mem_cons_self y ys)
      · exact hy hmem

theorem nodup_sortLower (l : List String) (h : l.Nodup) : (sortLower l).Nodup := by
  induction l with
  | nil => simp [sortLower]
  | cons x xs ih =>
    rcases List.nodup_cons.mp h with ⟨hx, hxs⟩
    exact nodup_insLower x (sortLower xs) (fun hh => hx ((mem_sortLower x xs).mp hh)) (ih hxs)

theorem mem_dedupStr (a : String) (l : List String) : a ∈ dedupStr l ↔ a ∈ l := by
  induction l with
  | nil => simp [dedupStr]
  | cons x xs ih =>
    by_cases h : x ∈ xs
    · simp only [dedupStr, if_pos h, ih, List.mem_cons]
      constructor
      · exact Or.inr
      · rintro (rfl | hh)
        · exact h
        · exact hh
    · simp [dedupStr, if_neg h, ih]

theorem nodup_dedupStr (l : List String) : (dedupStr l).Nodup := by
  induction l with
  | nil => simp [dedupStr]
  | cons x xs ih =>
    by_cases h : x ∈ xs
    · simpa [dedupStr, if_pos h] using ih
    · simp only [dedupStr, if_neg h, List.nodup_cons, mem_dedupStr]
      exact ⟨h, ih⟩

theorem mem_glob (p : String) (fs : FS) (dir ext : String) :
    p ∈ glob fs dir ext ↔
      ∃ n, n ∈ fs.dirEntries dir ∧ globMatch n ext = true ∧ p = pathJoin dir n := by
  simp only [glob, List.mem_filterMap]
  constructor
  · rintro ⟨n, hn, hsome⟩
    by_cases hg : globMatch n ext = true
    · rw [if_pos hg] at hsome
      exact ⟨n, hn, hg, (Option.some_injective _ hsome).symm⟩
    · rw [if_neg hg] at hsome
      exact absurd hsome (Option.noConfusion)
  · rintro ⟨n, hn, hg, rfl⟩
    exact ⟨n, hn, by rw [if_pos hg]⟩

/-- The pattern set of `_list_from_dir`: a name is globbed iff it matches
one of `*.csv`, `*.CSV`, `*.xlsx`, `*.xls` (case-sensitively). -/
def globAny (n : String) : Bool :=
  globMatch n ".csv" || globMatch n ".CSV" || globMatch n ".xlsx" || globMatch n ".xls"

/-- The extension test as the spec words it (claim C2): the name's
extension, compared case-insensitively, is `.csv`, `.xlsx` or `.xls`. -/
def specExtCI (n : String) : Bool :=
  endsW (lowerStr n) ".csv" || endsW (lowerStr n) ".xlsx" || endsW (lowerStr n) ".xls"

/-- C2 (amended): `_list_from_dir fs dir` returns exactly the entries of
`dir` whose name matches one of the four literal glob patterns `*.csv`,
`*.CSV`, `*.xlsx`, `*.xls` — case-SENSITIVELY, so `.XLSX`, `.Csv`, `.XLS`
are excluded while `.CSV` is included, and hidden names are skipped —
joined to `dir`, deduplicated, and sorted by the case-insensitive path
string. -/
theorem list_from_dir_characterization (fs : FS) (dir : String) :
    (∀ p, p ∈ _list_from_dir fs dir ↔
        ∃ n, n ∈ fs.dirEntries dir ∧ globAny n = true ∧ p = pathJoin dir n)
    ∧ (_list_from_dir fs dir).Pairwise
        (fun a b => lexLe (lowerStr a).data (lowerStr b).data = true)
    ∧ (_list_from_dir fs dir).Nodup := by
  refine ⟨?_, pairwise_sortLower _, nodup_sortLower _ (nodup_dedupStr _)⟩
  intro p
  simp only [_list_from_dir, mem_sortLower, mem_dedupStr, List.mem_append, mem_glob,
    globAny, Bool.or_eq_true]
  constructor
  · rintro (((⟨n, hn, hg, rfl⟩ | ⟨n, hn, hg, rfl⟩) | ⟨n, hn, hg, rfl⟩) | ⟨n, hn, hg, rfl⟩)
    · exact ⟨n, hn, Or.inl (Or.inl (Or.inl hg)), rfl⟩
    · exact ⟨n, hn, Or.inl (Or.inl (Or.inr hg)), rfl⟩
    · exact ⟨n, hn, Or.inl (Or.inr hg), rfl⟩
    · exact ⟨n, hn, Or.inr hg, rfl⟩
  · rintro ⟨n, hn, (((hg | hg) | hg) | hg), rfl⟩
    · exact Or.inl (Or.inl (Or.inl ⟨n, hn, hg, rfl⟩))
    · exact Or.inl (Or.inl (Or.inr ⟨n, hn, hg, rfl⟩))
    · exact Or.inl (Or.inr ⟨n, hn, hg, rfl⟩)
    · exact Or.inr ⟨n, hn, hg, rfl⟩

/-- C2 (counterexample): a directory entry `A.XLSX` has a spreadsheet
extension up to case, yet `_list_from_dir` omits it — the glob patterns
are matched case-sensitively, so the claimed case-insensitive inclusion
fails. -/
theorem list_from_dir_case_counterexample :
    "A.XLSX" ∈ FS.dirEntries ⟨[("d/A.XLSX", .raw "x")]⟩ "d"
    ∧ specExtCI "A.XLSX" = true
    ∧ "d/A.XLSX" ∉ _list_from_dir ⟨[("d/A.XLSX", .raw "x")]⟩ "d" := by
  refine ⟨by decide, by decide, by decide⟩

/-- C5: when the configured target is an existing regular file,
`find_sources` returns exactly that single path, with no condition on
its extension. -/
theorem find_sources_single_file (cfg : BotConfig) (fs : FS)
    (h : fs.isFile cfg.csvTarget = true) :
    find_sources cfg fs = [cfg.csvTarget] := by
  simp [find_sources, h]

/-- Witness for C5 at a concrete filesystem whose target is a file with
an unsupported extension. -/
theorem find_sources_single_file_witness :
    (FS.isFile ⟨[("notes.txt", .raw "hi")]⟩ "notes.txt" = true)
    ∧ find_sources ⟨"tok", "url", "notes.txt"⟩ ⟨[("notes.txt", .raw "hi")]⟩ = ["notes.txt"] :=
  ⟨by decide, find_sources_single_file ⟨"tok", "url", "notes.txt"⟩ ⟨[("notes.txt", .raw "hi")]⟩ (by decide)⟩

/-- C3: when a path in the Excel branch fails to convert, the batch
continues: the warning is recorded, the original file is included under
its original name, no temp artifact is recorded for it, and the
remaining paths are processed unchanged. -/
theorem prepare_conversion_fallback (cv : Converter) (tmp : String) (fs : FS) (p : String)
    (rest : List String) (hex : excelB p = true)
    (hfail : convert_excel_to_csv cv tmp fs p = none) :
    prepLoop cv tmp (p :: rest) fs =
      ⟨(p, pyName p) :: (prepLoop cv tmp rest fs).pairs,
       (prepLoop cv tmp rest fs).temps,
       p :: (prepLoop cv tmp rest fs).warns,
       (prepLoop cv tmp rest fs).fs⟩ := by
  simp [prepLoop, excelB_csvB_false p hex, hex, hfail]

/-- Witness for C3: a corrupt `.xlsx` (the converter rejects every
input) is passed through under its own name and the following `.csv`
is still processed. -/
theorem prepare_conversion_fallback_witness :
    excelB "d/bad.xlsx" = true
    ∧ convert_excel_to_csv ⟨fun _ => none⟩ "tmp"
        ⟨[("d/bad.xlsx", .raw "garbage"), ("d/ok.csv", .raw "o")]⟩ "d/bad.xlsx" = none
    ∧ prepLoop ⟨fun _ => none⟩ "tmp" ["d/bad.xlsx", "d/ok.csv"]
        ⟨[("d/bad.xlsx", .raw "garbage"), ("d/ok.csv", .raw "o")]⟩ =
      ⟨[("d/bad.xlsx", "bad.xlsx"), ("d/ok.csv", "ok.csv")], [], ["d/bad.xlsx"],
       ⟨[("d/bad.xlsx", .raw "garbage"), ("d/ok.csv", .raw "o")]⟩⟩ := by
  refine ⟨by decide, by decide, ?_⟩
  have h := prepare_conversion_fallback ⟨fun _ => none⟩ "tmp"
    ⟨[("d/bad.xlsx", .raw "garbage"), ("d/ok.csv", .raw "o")]⟩ "d/bad.xlsx" ["d/ok.csv"]
    (by decide) (by decide)
  rw [h]
  decide

/-- C4: the entry produced for each path, in input order.  A `.csv` path
(case-insensitive) passes through unchanged under its original file
name; an `.xlsx`/`.xls` path whose conversion succeeds contributes the
freshly written scratch file `tmp/<stem>.csv` under the display name
`<stem>_converted.csv` and records it in `temps`; the cons structure of
the result is exactly the input order. -/
theorem prepare_entry_mapping (cv : Converter) (tmp : String) (fs : FS) (p : String)
    (rest : List String) :
    (csvB p = true →
      prepLoop cv tmp (p :: rest) fs =
        ⟨(p, pyName p) :: (prepLoop cv tmp rest fs).pairs,
         (prepLoop cv tmp rest fs).temps,
         (prepLoop cv tmp rest fs).warns,
         (prepLoop cv tmp rest fs).fs⟩)
    ∧ (∀ d csv, excelB p = true → fs.read p = some d → cv.parse d.bytes = some csv →
        prepLoop cv tmp (p :: rest) fs =
          ⟨(pathJoin tmp (pyStem p ++ ".csv"), pyStem p ++ "_converted.csv") ::
             (prepLoop cv tmp rest
               (fs.write (pathJoin tmp (pyStem p ++ ".csv")) (.raw csv))).pairs,
           pathJoin tmp (pyStem p ++ ".csv") ::
             (prepLoop cv tmp rest
               (fs.write (pathJoin tmp (pyStem p ++ ".csv")) (.raw csv))).temps,
           (prepLoop cv tmp rest
             (fs.write (pathJoin tmp (pyStem p ++ ".csv")) (.raw csv))).warns,
           (prepLoop cv tmp rest
             (fs.write (pathJoin tmp (pyStem p ++ ".csv")) (.raw csv))).fs⟩
        ∧ (fs.write (pathJoin tmp (pyStem p ++ ".csv")) (.raw csv)).read
            (pathJoin tmp (pyStem p ++ ".csv")) = some (.raw csv)) := by
  constructor
  · intro hcsv
    simp [prepLoop, hcsv]
  · intro d csv hex hread hparse
    have hcsvF := excelB_csvB_false p hex
    have hconv : convert_excel_to_csv cv tmp fs p
        = some (pathJoin tmp (pyStem p ++ ".csv"),
                fs.write (pathJoin tmp (pyStem p ++ ".csv")) (.raw csv)) := by
      simp [convert_excel_to_csv, hread, hparse]
    refine ⟨?_, FS.read_write_self fs _ _⟩
    simp [prepLoop, hcsvF, hex, hconv]

/-- Witness for C4: an `.xlsx` followed by a `.csv`; the converted entry
comes first (input order), points at the written scratch file, and is
the only temp. -/
theorem prepare_entry_mapping_witness :
    prepLoop ⟨fun s => some (s ++ "!")⟩ "tmp" ["data/a.xlsx", "data/b.csv"]
        ⟨[("data/a.xlsx", .raw "X"), ("data/b.csv", .raw "B")]⟩ =
      ⟨[("tmp/a.csv", "a_converted.csv"), ("data/b.csv", "b.csv")],
       ["tmp/a.csv"], [],
       ⟨[("tmp/a.csv", .raw "X!"), ("data/a.xlsx", .raw "X"), ("data/b.csv", .raw "B")]⟩⟩ := by
  have h := (prepare_entry_mapping ⟨fun s => some (s ++ "!")⟩ "tmp"
    ⟨[("data/a.xlsx", .raw "X"), ("data/b.csv", .raw "B")]⟩ "data/a.xlsx" ["data/b.csv"]).2
    (.raw "X") "X!" (by decide) (by decide) (by decide)
  rw [h.1]
  decide

/-- Helper: the Excel-success step of the `prepare_files` loop, with the
scratch path and display name abstracted so concrete instances match
syntactically. -/
theorem prepLoop_excel_step (cv : Converter) (tmp : String) (fs : FS) (p : String)
    (rest : List String) (d : FData) (csv out dname : String)
    (hout : out = pathJoin tmp (pyStem p ++ ".csv"))
    (hdn : dname = pyStem p ++ "_converted.csv")
    (hex : excelB p = true) (hread : fs.read p = some d)
    (hparse : cv.parse d.bytes = some csv) :
    prepLoop cv tmp (p :: rest) fs =
      ⟨(out, dname) :: (prepLoop cv tmp rest (fs.write out (.raw csv))).pairs,
       out :: (prepLoop cv tmp rest (fs.write out (.raw csv))).temps,
       (prepLoop cv tmp rest (fs.write out (.raw csv))).warns,
       (prepLoop cv tmp rest (fs.write out (.raw csv))).fs⟩ := by
  subst hout hdn
  have hconv : convert_excel_to_csv cv tmp fs p
      = some (pathJoin tmp (pyStem p ++ ".csv"),
              fs.write (pathJoin tmp (pyStem p ++ ".csv")) (.raw csv)) := by
    simp [convert_excel_to_csv, hread, hparse]
  simp [prepLoop, excelB_csvB_false p hex, hex, hconv]

/-- C6: `zip_pairs` always writes the archive at the fixed scratch path
(overwriting whatever was there), its entries are exactly the pairs
whose effective path still exists — each contributing its bytes under
its display name, the missing ones silently skipped — and the empty
input yields a valid archive with zero entries. -/
theorem zip_pairs_spec (tmp : String) (fs : FS) (pairs : List (String × String)) :
    (zip_pairs tmp fs pairs).1 = pathJoin tmp "test_portfolios.zip"
    ∧ (zip_pairs tmp fs pairs).2.read (pathJoin tmp "test_portfolios.zip")
        = some (.zipf (pairs.filterMap fun pr => (fs.read pr.1).map fun d => (pr.2, d.bytes)))
    ∧ (zip_pairs tmp fs []).2.read (pathJoin tmp "test_portfolios.zip") = some (.zipf []) := by
  have hent : ∀ pr : String × String,
      (if fs.isFile pr.1 then some (pr.2, ((fs.read pr.1).getD (.raw "")).bytes) else none)
        = (fs.read pr.1).map fun d => (pr.2, d.bytes) := by
    intro pr
    cases h : fs.read pr.1 with
    | none => simp [FS.isFile, h]
    | some d => simp [FS.isFile, h]
  refine ⟨rfl, ?_, ?_⟩
  · show (fs.write (pathJoin tmp "test_portfolios.zip") _).read _ = _
    rw [FS.read_write_self]
    exact congrArg (fun l => some (FData.zipf l)) (List.filterMap_congr (fun a _ => hent a))
  · show (fs.write (pathJoin tmp "test_portfolios.zip") _).read _ = _
    rw [FS.read_write_self]
    rfl

/-- C7: if the conversation-transport credential is unset or empty, the
module top level raises the fatal configuration error and the process
does not start. -/
theorem boot_requires_token (env : BotEnv) (normPath : String → String)
    (h : env.botToken = none ∨ env.botToken = some "") :
    boot env normPath = .error "Set BOT_TOKEN in .env with your BotFather token." := by
  rcases h with h | h <;> simp [boot, h, pyStrip]

/-- Witness for C7 at the empty environment. -/
theorem boot_requires_token_witness :
    boot ⟨none, none, none⟩ id = .error "Set BOT_TOKEN in .env with your BotFather token." :=
  boot_requires_token ⟨none, none, none⟩ id (Or.inl rfl)

/-- C1 (evidence of the cleanup gap): with the source directory holding
one convertible `s.xlsx`, if building the archive raises — `zip_pairs`
runs *before* the handler's `try`/`finally` — then `send_zip` propagates
the exception while the converted temp file `tmp/s.csv`, which
`prepare_files` recorded for deletion, is still on disk. -/
theorem send_zip_temp_leak :
    (prepare_files ⟨"tok", "url", "data"⟩ ⟨fun s => some (s ++ "!")⟩ "tmp"
        ⟨[("data/s.xlsx", .raw "X")]⟩).temps = ["tmp/s.csv"]
    ∧ (send_zip ⟨true, true, false, fun _ => true⟩ ⟨"tok", "url", "data"⟩
        ⟨fun s => some (s ++ "!")⟩ "tmp" ⟨[("data/s.xlsx", .raw "X")]⟩).1 = false
    ∧ (send_zip ⟨true, true, false, fun _ => true⟩ ⟨"tok", "url", "data"⟩
        ⟨fun s => some (s ++ "!")⟩ "tmp" ⟨[("data/s.xlsx", .raw "X")]⟩).2.2.isFile "tmp/s.csv"
        = true := by
  refine ⟨by decide, by decide, by decide⟩

/-- C9: when the configured target is an existing regular file whose
name matches none of the spreadsheet extensions (case-insensitively),
`find_sources` returns it, `prepare_files` silently drops it (no entry,
no temp, no warning, filesystem untouched), and `send_zip` replies with
the no-files message naming the configured file. -/
theorem unsupported_target_file_dropped (ora : Ora) (cfg : BotConfig) (cv : Converter)
    (tmp : String) (fs : FS)
    (hfile : fs.isFile cfg.csvTarget = true)
    (hcsv : csvB cfg.csvTarget = false) (hex : excelB cfg.csvTarget = false)
    (hlink : ora.linkOk = true) (htext : ora.textOk = true) :
    find_sources cfg fs = [cfg.csvTarget]
    ∧ prepare_files cfg cv tmp fs = ⟨[], [], [], fs⟩
    ∧ send_zip ora cfg cv tmp fs =
        (true, [welcomeMsg cfg, noFilesMsg cfg.csvTarget], fs) := by
  have hsrc : find_sources cfg fs = [cfg.csvTarget] := by simp [find_sources, hfile]
  have hprep : prepare_files cfg cv tmp fs = ⟨[], [], [], fs⟩ := by
    simp [prepare_files, hsrc, prepLoop, hcsv, hex]
  refine ⟨hsrc, hprep, ?_⟩
  simp [send_zip, hprep, hlink, htext, targetHint, hfile]

/-- Witness for C9: the configured target `notes.txt` exists but has an
unsupported extension; the handler reports that no files were found. -/
theorem unsupported_target_file_dropped_witness :
    find_sources ⟨"tok", "url", "notes.txt"⟩ ⟨[("notes.txt", .raw "hi")]⟩ = ["notes.txt"]
    ∧ prepare_files ⟨"tok", "url", "notes.txt"⟩ ⟨fun _ => none⟩ "tmp"
        ⟨[("notes.txt", .raw "hi")]⟩ = ⟨[], [], [], ⟨[("notes.txt", .raw "hi")]⟩⟩
    ∧ send_zip ⟨true, true, true, fun _ => true⟩ ⟨"tok", "url", "notes.txt"⟩ ⟨fun _ => none⟩
        "tmp" ⟨[("notes.txt", .raw "hi")]⟩ =
        (true, [welcomeMsg ⟨"tok", "url", "notes.txt"⟩, noFilesMsg "notes.txt"],
         ⟨[("notes.txt", .raw "hi")]⟩) :=
  unsupported_target_file_dropped ⟨true, true, true, fun _ => true⟩ ⟨"tok", "url", "notes.txt"⟩
    ⟨fun _ => none⟩ "tmp" ⟨[("notes.txt", .raw "hi")]⟩
    (by decide) (by decide) (by decide) rfl rfl

/-- C10: a directory holding `s.xlsx` and `s.xls` — same stem, distinct
Excel extensions.  Both conversions target the single scratch path
`tmp/s.csv`; `prepare_files` returns two entries with that same
effective path and the same display name `s_converted.csv`, records the
path twice in `temps`, and the second conversion (of `s.xlsx`, sorted
after `s.xls`) has overwritten the first one's output. -/
theorem same_stem_scratch_collision (cv : Converter) (tmp : String) (cx cy ox oy : String)
    (hx : cv.parse cx = some ox) (hy : cv.parse cy = some oy) :
    (prepare_files ⟨"tok", "url", "data"⟩ cv tmp
        ⟨[("data/s.xls", .raw cx), ("data/s.xlsx", .raw cy)]⟩).pairs
      = [(pathJoin tmp "s.csv", "s_converted.csv"), (pathJoin tmp "s.csv", "s_converted.csv")]
    ∧ (prepare_files ⟨"tok", "url", "data"⟩ cv tmp
        ⟨[("data/s.xls", .raw cx), ("data/s.xlsx", .raw cy)]⟩).temps
      = [pathJoin tmp "s.csv", pathJoin tmp "s.csv"]
    ∧ (prepare_files ⟨"tok", "url", "data"⟩ cv tmp
        ⟨[("data/s.xls", .raw cx), ("data/s.xlsx", .raw cy)]⟩).fs.read (pathJoin tmp "s.csv")
      = some (.raw oy) := by
  have hout : endsW (pathJoin tmp "s.csv") ".csv" = true := out_endsW_csv tmp "s"
  have hne : "data/s.xlsx" ≠ pathJoin tmp "s.csv" := by
    intro hh
    rw [← hh] at hout
    exact absurd hout (by decide)
  have hpf : prepare_files ⟨"tok", "url", "data"⟩ cv tmp
      ⟨[("data/s.xls", .raw cx), ("data/s.xlsx", .raw cy)]⟩
      = prepLoop cv tmp ["data/s.xls", "data/s.xlsx"]
          ⟨[("data/s.xls", .raw cx), ("data/s.xlsx", .raw cy)]⟩ := rfl
  have h1 := prepLoop_excel_step cv tmp
    ⟨[("data/s.xls", .raw cx), ("data/s.xlsx", .raw cy)]⟩ "data/s.xls" ["data/s.xlsx"]
    (.raw cx) ox (pathJoin tmp "s.csv") "s_converted.csv" rfl rfl (by decide) rfl hx
  have hread2 : ((⟨[("data/s.xls", .raw cx), ("data/s.xlsx", .raw cy)]⟩ : FS).write
      (pathJoin tmp "s.csv") (.raw ox)).read "data/s.xlsx" = some (.raw cy) := by
    rw [FS.read_write_ne _ _ _ _ hne]
    rfl
  have h2 := prepLoop_excel_step cv tmp
    ((⟨[("data/s.xls", .raw cx), ("data/s.xlsx", .raw cy)]⟩ : FS).write
      (pathJoin tmp "s.csv") (.raw ox)) "data/s.xlsx" []
    (.raw cy) oy (pathJoin tmp "s.csv") "s_converted.csv" rfl rfl (by decide) hread2 hy
  refine ⟨?_, ?_, ?_⟩ <;> rw [hpf, h1, h2] <;> simp [prepLoop, FS.read_write_self]

/-- Witness for C10 with concrete contents and a concrete converter. -/
theorem same_stem_scratch_collision_witness :
    (prepare_files ⟨"tok", "url", "data"⟩ ⟨fun s => some (s ++ "!")⟩ "tmp"
        ⟨[("data/s.xls", .raw "cx"), ("data/s.xlsx", .raw "cy")]⟩).pairs
      = [("tmp/s.csv", "s_converted.csv"), ("tmp/s.csv", "s_converted.csv")]
    ∧ (prepare_files ⟨"tok", "url", "data"⟩ ⟨fun s => some (s ++ "!")⟩ "tmp"
        ⟨[("data/s.xls", .raw "cx"), ("data/s.xlsx", .raw "cy")]⟩).temps
      = ["tmp/s.csv", "tmp/s.csv"]
    ∧ (prepare_files ⟨"tok", "url", "data"⟩ ⟨fun s => some (s ++ "!")⟩ "tmp"
        ⟨[("data/s.xls", .raw "cx"), ("data/s.xlsx", .raw "cy")]⟩).fs.read "tmp/s.csv"
      = some (.raw "cy!") :=
  same_stem_scratch_collision ⟨fun s => some (s ++ "!")⟩ "tmp" "cx" "cy" "cx!" "cy!" rfl rfl

/-- Helper: a successful conversion determines its components. -/
theorem convert_some_elim (cv : Converter) (tmp : String) (fs : FS) (p : String)
    (pr : String × FS) (h : convert_excel_to_csv cv tmp fs p = some pr) :
    ∃ d csv, fs.read p = some d ∧ cv.parse d.bytes = some csv
      ∧ pr = (pathJoin tmp (pyStem p ++ ".csv"),
              fs.write (pathJoin tmp (pyStem p ++ ".csv")) (.raw csv)) := by
  cases hr : fs.read p with
  | none => simp [convert_excel_to_csv, hr] at h
  | some d =>
    cases hp : cv.parse d.bytes with
    | none => simp [convert_excel_to_csv, hr, hp] at h
    | some csv =>
      simp only [convert_excel_to_csv, hr, hp, Option.some.injEq] at h
      exact ⟨d, csv, rfl, hp, h.symm⟩

/-- Helper: conversion failure only depends on the bytes at `p`. -/
theorem convert_none_congr (cv : Converter) (tmp : String) (f g : FS) (p : String)
    (hgf : g.read p = f.read p) (h : convert_excel_to_csv cv tmp f p = none) :
    convert_excel_to_csv cv tmp g p = none := by
  cases hr : f.read p with
  | none => simp [convert_excel_to_csv, hgf, hr]
  | some d =>
    cases hp : cv.parse d.bytes with
    | none => simp [convert_excel_to_csv, hgf, hr, hp]
    | some csv => simp [convert_excel_to_csv, hr, hp] at h

/-- Helper: a successful conversion transfers to any filesystem holding
the same bytes at `p`, producing the same scratch path and content. -/
theorem convert_some_congr (cv : Converter) (tmp : String) (f g : FS) (p : String)
    (d : FData) (csv : String) (hrd : f.read p = some d) (hgf : g.read p = f.read p)
    (hps : cv.parse d.bytes = some csv) :
    convert_excel_to_csv cv tmp g p
      = some (pathJoin tmp (pyStem p ++ ".csv"),
              g.write (pathJoin tmp (pyStem p ++ ".csv")) (.raw csv)) := by
  simp [convert_excel_to_csv, hgf, hrd, hps]

/-- Helper: cons equation of the loop, CSV branch. -/
theorem prepLoop_cons_csvH (cv : Converter) (tmp : String) (fs : FS) (p : String)
    (ps : List String) (h : csvB p = true) :
    prepLoop cv tmp (p :: ps) fs =
      ⟨(p, pyName p) :: (prepLoop cv tmp ps fs).pairs, (prepLoop cv tmp ps fs).temps,
       (prepLoop cv tmp ps fs).warns, (prepLoop cv tmp ps fs).fs⟩ := by
  simp [prepLoop, h]

/-- Helper: cons equation of the loop, Excel branch with failing
conversion. -/
theorem prepLoop_cons_fail (cv : Converter) (tmp : String) (fs : FS) (p : String)
    (ps : List String) (hc : csvB p = false) (he : excelB p = true)
    (hcv : convert_excel_to_csv cv tmp fs p = none) :
    prepLoop cv tmp (p :: ps) fs =
      ⟨(p, pyName p) :: (prepLoop cv tmp ps fs).pairs, (prepLoop cv tmp ps fs).temps,
       p :: (prepLoop cv tmp ps fs).warns, (prepLoop cv tmp ps fs).fs⟩ := by
  simp [prepLoop, hc, he, hcv]

/-- Helper: cons equation of the loop, Excel branch with successful
conversion. -/
theorem prepLoop_cons_conv (cv : Converter) (tmp : String) (fs : FS) (p : String)
    (ps : List String) (cp : String) (fs' : FS) (hc : csvB p = false) (he : excelB p = true)
    (hcv : convert_excel_to_csv cv tmp fs p = some (cp, fs')) :
    prepLoop cv tmp (p :: ps) fs =
      ⟨(cp, pyStem p ++ "_converted.csv") :: (prepLoop cv tmp ps fs').pairs,
       cp :: (prepLoop cv tmp ps fs').temps,
       (prepLoop cv tmp ps fs').warns, (prepLoop cv tmp ps fs').fs⟩ := by
  simp [prepLoop, hc, he, hcv]

/-- Helper: cons equation of the loop, unsupported extension (skipped). -/
theorem prepLoop_cons_skip (cv : Converter) (tmp : String) (fs : FS) (p : String)
    (ps : List String) (hc : csvB p = false) (he : excelB p = false) :
    prepLoop cv tmp (p :: ps) fs = prepLoop cv tmp ps fs := by
  simp [prepLoop, hc, he]

/-- Helper (frame): the `prepare_files` loop writes only scratch paths
that literally end in `.csv`; every other path keeps its content. -/
theorem prepLoop_frame (cv : Converter) (tmp : String) :
    ∀ (src : List String) (fs : FS) (q : String), endsW q ".csv" = false →
      (prepLoop cv tmp src fs).fs.read q = fs.read q := by
  intro src
  induction src with
  | nil => intro fs q _; rfl
  | cons p ps ih =>
    intro fs q hq
    cases hc : csvB p with
    | true =>
      rw [prepLoop_cons_csvH cv tmp fs p ps hc]
      exact ih fs q hq
    | false =>
      cases he : excelB p with
      | false =>
        rw [prepLoop_cons_skip cv tmp fs p ps hc he]
        exact ih fs q hq
      | true =>
        cases hcv : convert_excel_to_csv cv tmp fs p with
        | none =>
          rw [prepLoop_cons_fail cv tmp fs p ps hc he hcv]
          exact ih fs q hq
        | some pr =>
          obtain ⟨d, csv, hrd, hps, rfl⟩ := convert_some_elim cv tmp fs p pr hcv
          rw [prepLoop_cons_conv cv tmp fs p ps _ _ hc he hcv]
          have hqo : q ≠ pathJoin tmp (pyStem p ++ ".csv") := by
            intro hh
            rw [hh, out_endsW_csv tmp (pyStem p)] at hq
            exact absurd hq (by decide)
          show (prepLoop cv tmp ps
              (fs.write (pathJoin tmp (pyStem p ++ ".csv")) (.raw csv))).fs.read q = fs.read q
          rw [ih _ q hq, FS.read_write_ne _ _ _ _ hqo]

/-- Helper (replay): running the loop from two filesystems that agree on
every non-`.csv` path produces the same pairs, temps and warnings, and
leaves, at every path, either contents equal to each other or the
respective initial contents (no write happened there in either run). -/
theorem prepLoop_stable (cv : Converter) (tmp : String) :
    ∀ (src : List String) (f g : FS),
      (∀ q, endsW q ".csv" = false → g.read q = f.read q) →
      (prepLoop cv tmp src g).pairs = (prepLoop cv tmp src f).pairs
      ∧ (prepLoop cv tmp src g).temps = (prepLoop cv tmp src f).temps
      ∧ (prepLoop cv tmp src g).warns = (prepLoop cv tmp src f).warns
      ∧ ∀ q, (prepLoop cv tmp src g).fs.read q = (prepLoop cv tmp src f).fs.read q
            ∨ ((prepLoop cv tmp src g).fs.read q = g.read q
               ∧ (prepLoop cv tmp src f).fs.read q = f.read q) := by
  intro src
  induction src with
  | nil => exact fun f g _ => ⟨rfl, rfl, rfl, fun q => Or.inr ⟨rfl, rfl⟩⟩
  | cons p ps ih =>
    intro f g hinv
    cases hc : csvB p with
    | true =>
      obtain ⟨hp, ht, hw, hfs⟩ := ih f g hinv
      rw [prepLoop_cons_csvH cv tmp f p ps hc, prepLoop_cons_csvH cv tmp g p ps hc]
      exact ⟨by rw [hp], ht, hw, hfs⟩
    | false =>
      cases he : excelB p with
      | false =>
        rw [prepLoop_cons_skip cv tmp f p ps hc he, prepLoop_cons_skip cv tmp g p ps hc he]
        exact ih f g hinv
      | true =>
        have hgf : g.read p = f.read p := hinv p (excelB_not_litcsv p he)
        cases hcvf : convert_excel_to_csv cv tmp f p with
        | none =>
          have hcvg : convert_excel_to_csv cv tmp g p = none :=
            convert_none_congr cv tmp f g p hgf hcvf
          obtain ⟨hp, ht, hw, hfs⟩ := ih f g hinv
          rw [prepLoop_cons_fail cv tmp f p ps hc he hcvf,
              prepLoop_cons_fail cv tmp g p ps hc he hcvg]
          exact ⟨by rw [hp], ht, by rw [hw], hfs⟩
        | some pr =>
          obtain ⟨d, csv, hrd, hps, rfl⟩ := convert_some_elim cv tmp f p pr hcvf
          have hcvg := convert_some_congr cv tmp f g p d csv hrd hgf hps
          have hinv' : ∀ q, endsW q ".csv" = false →
              (g.write (pathJoin tmp (pyStem p ++ ".csv")) (.raw csv)).read q
                = (f.write (pathJoin tmp (pyStem p ++ ".csv")) (.raw csv)).read q := by
            intro q hq
            have hqo : q ≠ pathJoin tmp (pyStem p ++ ".csv") := by
              intro hh
              rw [hh, out_endsW_csv tmp (pyStem p)] at hq
              exact absurd hq (by decide)
            rw [FS.read_write_ne _ _ _ _ hqo, FS.read_write_ne _ _ _ _ hqo]
            exact hinv q hq
          obtain ⟨hp, ht, hw, hfs⟩ :=
            ih (f.write (pathJoin tmp (pyStem p ++ ".csv")) (.raw csv))
               (g.write (pathJoin tmp (pyStem p ++ ".csv")) (.raw csv)) hinv'
          rw [prepLoop_cons_conv cv tmp f p ps _ _ hc he hcvf,
              prepLoop_cons_conv cv tmp g p ps _ _ hc he hcvg]
          refine ⟨by rw [hp], by rw [ht], hw, ?_⟩
          intro q
          rcases hfs q with heq | ⟨hg', hf'⟩
          · exact Or.inl heq
          · by_cases hqo : q = pathJoin tmp (pyStem p ++ ".csv")
            · subst hqo
              rw [FS.read_write_self] at hg' hf'
              exact Or.inl (hg'.trans hf'.symm)
            · rw [FS.read_write_ne _ _ _ _ hqo] at hg' hf'
              exact Or.inr ⟨hg', hf'⟩

/-- C8: running `prepare_files` a second time on the filesystem the
first run left behind — provided the source resolution is unchanged,
i.e. nothing the resolver sees was disturbed — reproduces the same
entries (hence identical display names in the same order) and the
contents behind each corresponding entry are identical; indeed the two
final filesystems agree at every path. -/
theorem prepare_files_idempotent (cfg : BotConfig) (cv : Converter) (tmp : String) (fs : FS)
    (hsrc : find_sources cfg (prepare_files cfg cv tmp fs).fs = find_sources cfg fs) :
    (prepare_files cfg cv tmp (prepare_files cfg cv tmp fs).fs).pairs
      = (prepare_files cfg cv tmp fs).pairs
    ∧ (prepare_files cfg cv tmp (prepare_files cfg cv tmp fs).fs).pairs.map Prod.snd
      = (prepare_files cfg cv tmp fs).pairs.map Prod.snd
    ∧ ∀ q, (prepare_files cfg cv tmp (prepare_files cfg cv tmp fs).fs).fs.read q
      = (prepare_files cfg cv tmp fs).fs.read q := by
  have hinv : ∀ q, endsW q ".csv" = false →
      (prepare_files cfg cv tmp fs).fs.read q = fs.read q := by
    intro q hq
    exact prepLoop_frame cv tmp (find_sources cfg fs) fs q hq
  have hrun2 : prepare_files cfg cv tmp (prepare_files cfg cv tmp fs).fs
      = prepLoop cv tmp (find_sources cfg fs) (prepare_files cfg cv tmp fs).fs := by
    rw [prepare_files, hsrc]
  obtain ⟨hp, _ht, _hw, hfs⟩ :=
    prepLoop_stable cv tmp (find_sources cfg fs) fs (prepare_files cfg cv tmp fs).fs hinv
  refine ⟨?_, ?_, ?_⟩
  · rw [hrun2]
    exact hp
  · rw [hrun2, hp]
    rfl
  · intro q
    rw [hrun2]
    rcases hfs q with heq | ⟨hg', _hf'⟩
    · exact heq
    · exact hg'

/-- Witness for C8: one convertible `.xlsx`; after the first run the
resolver still sees only the source file, and the second run reproduces
the same entry and contents. -/
theorem prepare_files_idempotent_witness :
    (find_sources ⟨"tok", "url", "data"⟩
        (prepare_files ⟨"tok", "url", "data"⟩ ⟨fun s => some (s ++ "!")⟩ "tmp"
          ⟨[("data/a.xlsx", .raw "X")]⟩).fs
      = find_sources ⟨"tok", "url", "data"⟩ ⟨[("data/a.xlsx", .raw "X")]⟩)
    ∧ (prepare_files ⟨"tok", "url", "data"⟩ ⟨fun s => some (s ++ "!")⟩ "tmp"
        (prepare_files ⟨"tok", "url", "data"⟩ ⟨fun s => some (s ++ "!")⟩ "tmp"
          ⟨[("data/a.xlsx", .raw "X")]⟩).fs).pairs
      = (prepare_files ⟨"tok", "url", "data"⟩ ⟨fun s => some (s ++ "!")⟩ "tmp"
          ⟨[("data/a.xlsx", .raw "X")]⟩).pairs := by
  refine ⟨by decide, ?_⟩
  exact (prepare_files_idempotent ⟨"tok", "url", "data"⟩ ⟨fun s => some (s ++ "!")⟩ "tmp"
    ⟨[("data/a.xlsx", .raw "X")]⟩ (by decide)).1
